import Mathlib

/-!
Shallow embedding of `aux_tasks/synthetic/run_synthetic.py` (the synthetic
implicit-aux-tasks trainer).

Modelling conventions:

* All floating-point arrays are idealised as exact-rational matrices
  `Matrix (Fin m) (Fin n) ℚ`.  A floating-point NaN produced by a metric is
  modelled as `Option.none`.
* The collaborators that live outside this file (`utils.draw_states`,
  `utils.compute_max_feature_norm`, `utils.outer_objective_mc`,
  `estimates.naive_inverse_covariance_matrix`,
  `estimates.lissa_inverse_covariance_matrix`, `jax.random.split`,
  `jax.random.normal`, `jnp.linalg.pinv`, `jnp.linalg.norm`, and the
  remaining metric numerics) are modelled from the spec as fields of a
  `Collab` bundle of deterministic functions over an explicit generator
  state, and every theorem quantifies over an arbitrary such bundle.
* `jax` arrays are immutable and `_train_step` is `jax.jit`-compiled, so the
  step is a pure function from its inputs to a returned dict; Python
  exceptions (the `assert` in `train`, `UnboundLocalError` for an unmatched
  method string, `TypeError` for in-place item assignment on a jax array)
  are modelled with `Except String`.
* `jnp` linear algebra does not raise `numpy.linalg.LinAlgError`; on a
  singular system `jnp.linalg.solve` silently produces non-finite values.
  We model that outcome as `none` (the NaN sentinel).
-/

namespace RunSynthetic

/-- A jax PRNG key, abstracted: the code threads an opaque generator state. -/
abbrev Key : Type := Nat

/-- Exact-rational model of a `(m, n)` jax float array. -/
abbrev Mat (m n : Nat) : Type := Matrix (Fin m) (Fin n) ℚ

/-- Modelled from the spec: the external collaborator contracts consumed by
`run_synthetic.py` (spec section 6).  Missing from `src/` are the modules
`aux_tasks.synthetic.utils` and `aux_tasks.synthetic.estimates` as well as the
`jax` / `jnp.linalg` numerics; each is modelled as a deterministic function,
drawing methods returning the advanced generator state.

`draw_S` and `draw_T` both model `utils.draw_states(population, batch, key)`
at the two population sizes used (`num_states` and `num_tasks`); the contract
returns `batch` indices below the population size together with the advanced
key.  `key_split` models `jax.random.split`, `normal_dT` models
`jax.random.normal(key, (d, num_tasks))`, `pinv` models `jnp.linalg.pinv`,
`frob_norm` models `jnp.linalg.norm`, and `eigengame`, `grassman`,
`dot_product` model the SVD/QR-based metric numerics
(`eigengame_subspace_distance`, `compute_grassman_distance`,
`compute_normalized_dot_product`) that no claim inspects internally. -/
structure Collab (S d T : Nat) where
  draw_S : (batch : Nat) → Key → (Fin batch → Fin S) × Key
  draw_T : (batch : Nat) → Key → (Fin batch → Fin T) × Key
  key_split : Key → Key × Key
  normal_dT : Key → Mat d T
  max_feature_norm : (B : Nat) → Mat B d → ℚ
  naive_inverse : Mat S d → Key → Nat → Mat d d × Key
  lissa_inverse : Mat S d → Key → Nat → ℚ → Option ℚ → Mat d d × Key
  pinv : Mat d d → Mat d d
  frob_norm : (m n : Nat) → Mat m n → ℚ
  eigengame : Mat S d → Mat S d → Option ℚ
  grassman : Mat S d → Mat S d → ℚ
  dot_product : Mat S d → Mat S d → ℚ
  outer_objective_mc : Mat S d → Mat S T → ℚ

variable {S d T : Nat}

/-- Exact model of `jnp.linalg.solve A B` for a square system: on a singular
matrix jax produces non-finite values (modelled `none`); otherwise the unique
solution `A⁻¹ B`, computed by Cramer / adjugate so that it is executable. -/
def linalg_solve {n : Nat} (A B : Mat n n) : Option (Mat n n) :=
  if A.det = 0 then none
  else some (Matrix.of fun i j => A.det⁻¹ * (A.adjugate * B) i j)

/-- Embedding of `compute_cosine_similarity` (run_synthetic.py lines 86-94):
solve the normal equations `(Y1ᵀY1) w = Y1ᵀY2`, project `Y1 @ w`, return the
norm of the projection.  The `except numpy.linalg.LinAlgError` branch of the
source is unreachable under jax (jnp.linalg.solve never raises it); a singular
system instead propagates non-finite values into the norm, so both the
source's sentinel branch and the jax behaviour yield the NaN sentinel,
modelled as `none`. -/
def compute_cosine_similarity (C : Collab S d T) (Y1 Y2 : Mat S d) : Option ℚ :=
  match linalg_solve (Matrix.transpose Y1 * Y1) (Matrix.transpose Y1 * Y2) with
  | some projection_weights => some (C.frob_norm S d (Y1 * projection_weights))
  | none => none

/-- One record of the per-step scalar metric stream (the keys written by
`compute_metrics`, lines 119-154; `grassman_distance` and `dot_product` are
mutually exclusive by feature dimension). -/
structure MetricsRec where
  cosine_similarity : Option ℚ
  feature_norm : ℚ
  eigengame_subspace_distance : Option ℚ
  grassman_distance : Option ℚ
  dot_product : Option ℚ

/-- Embedding of `compute_metrics` (lines 119-154). -/
def compute_metrics (C : Collab S d T) (Phi optimal_subspace : Mat S d) :
    MetricsRec where
  cosine_similarity := compute_cosine_similarity C Phi optimal_subspace
  feature_norm := C.frob_norm S d Phi / (S : ℚ)
  eigengame_subspace_distance := C.eigengame Phi optimal_subspace
  grassman_distance :=
    if 1 < d then some (C.grassman Phi optimal_subspace) else none
  dot_product :=
    if d = 1 then some (C.dot_product Phi optimal_subspace) else none

/-- The intermediate values of the implicit-method weight construction inside
`_train_step` (lines 223-271): the two covariance estimates, the two
weight-state index batches, the two weight vectors and the generator state
left after the construction. -/
structure ImplicitW (S d : Nat) where
  covariance_1 : Mat d d
  covariance_2 : Mat d d
  weight_states_1 : List (Fin S)
  weight_states_2 : List (Fin S)
  weight_1 : Fin d → ℚ
  weight_2 : Fin d → ℚ
  key : Key

/-- Embedding of the weight estimate of lines 268-271:
`(covariance @ Phi[weight_states].T @ Psi[weight_states, task]) / len(weight_states)`. -/
def weightEstimate (covariance : Mat d d) (Phi : Mat S d) (Psi : Mat S T)
    (weight_states : List (Fin S)) (task : Fin T) : Fin d → ℚ :=
  fun j =>
    ((weight_states.map fun s =>
        (∑ j2, covariance j j2 * Phi s j2) * Psi s task).sum) /
      ((weight_states.length : ℚ))

/-- Embedding of the implicit branch of `_train_step` (lines 223-271).  The
method dispatch mirrors the source: `oracle` uses the exact pseudoinverse of
`Phi.T @ Phi` scaled by `num_states` and `jnp.arange(0, num_states)` for both
weight vectors; `naive` draws one covariance estimate and one weight batch and
reuses them; `naive++` and `lissa` each advance the key through two estimator
calls and two weight-batch draws.  Any other method string leaves
`covariance_1` unassigned, so line 268 raises `UnboundLocalError`. -/
def implicitWeights (C : Collab S d T) (Phi : Mat S d) (Psi : Mat S T)
    (key : Key) (method : String) (lissa_kappa : ℚ)
    (covariance_batch_size weight_batch_size : Nat) (task : Fin T) :
    Except String (ImplicitW S d) :=
  if method = "oracle" then
    let covariance_1 : Mat d d :=
      Matrix.of fun i j => C.pinv (Matrix.transpose Phi * Phi) i j * (S : ℚ)
    let weight_states_1 : List (Fin S) := List.finRange S
    .ok ⟨covariance_1, covariance_1, weight_states_1, weight_states_1,
      weightEstimate covariance_1 Phi Psi weight_states_1 task,
      weightEstimate covariance_1 Phi Psi weight_states_1 task, key⟩
  else if method = "naive" then
    let c1 := C.naive_inverse Phi key covariance_batch_size
    let w1 := C.draw_S weight_batch_size c1.2
    let weight_states_1 : List (Fin S) := List.ofFn w1.1
    .ok ⟨c1.1, c1.1, weight_states_1, weight_states_1,
      weightEstimate c1.1 Phi Psi weight_states_1 task,
      weightEstimate c1.1 Phi Psi weight_states_1 task, w1.2⟩
  else if method = "naive++" then
    let c1 := C.naive_inverse Phi key covariance_batch_size
    let c2 := C.naive_inverse Phi c1.2 covariance_batch_size
    let w1 := C.draw_S weight_batch_size c2.2
    let w2 := C.draw_S weight_batch_size w1.2
    .ok ⟨c1.1, c2.1, List.ofFn w1.1, List.ofFn w2.1,
      weightEstimate c1.1 Phi Psi (List.ofFn w1.1) task,
      weightEstimate c2.1 Phi Psi (List.ofFn w2.1) task, w2.2⟩
  else if method = "lissa" then
    let c1 := C.lissa_inverse Phi key covariance_batch_size lissa_kappa none
    let c2 := C.lissa_inverse Phi c1.2 covariance_batch_size lissa_kappa none
    let w1 := C.draw_S weight_batch_size c2.2
    let w2 := C.draw_S weight_batch_size w1.2
    .ok ⟨c1.1, c2.1, List.ofFn w1.1, List.ofFn w2.1,
      weightEstimate c1.1 Phi Psi (List.ofFn w1.1) task,
      weightEstimate c2.1 Phi Psi (List.ofFn w2.1) task, w2.2⟩
  else
    .error "UnboundLocalError: local variable covariance_1 referenced before assignment"

/-- The dict returned by `_train_step` (lines 300-305): updated `Phi`,
`estimated_feature_norm`, `key`, and the raw `gradient`. -/
structure StepResult (S d B : Nat) where
  Phi : Mat S d
  estimated_feature_norm : Option ℚ
  key : Key
  gradient : Mat B d

/-- Embedding of the feature-norm EMA of lines 207-213: only for
`method == 'lissa' and estimate_feature_norm` is
`estimated + 0.01 * (max_norm - estimated)` computed, from the sampled
source-state rows of `Phi`; a `None` running estimate would make the Python
addition raise. -/
def stepEfn {B : Nat} (C : Collab S d T) (Phi : Mat S d)
    (source_states : Fin B → Fin S) (estimated_feature_norm : Option ℚ)
    (method : String) (estimate_feature_norm : Bool) :
    Except String (Option ℚ) :=
  if method = "lissa" ∧ estimate_feature_norm then
    match estimated_feature_norm with
    | some n0 =>
      .ok (some (n0 + (1 / 100 : ℚ) *
        (C.max_feature_norm B (Matrix.of fun i j => Phi (source_states i) j) - n0)))
    | none => .error "TypeError: unsupported operand types: NoneType and float"
  else .ok estimated_feature_norm

/-- Embedding of the weight-vector dispatch of lines 215-271: the `explicit`
method reads column `task` of the maintained explicit weight matrix for both
vectors (lines 217-222); every other method goes through `implicitWeights`. -/
def stepWeights (C : Collab S d T) (Phi : Mat S d) (Psi : Mat S T)
    (explicit_weight_matrix : Mat d T) (key : Key) (method : String)
    (lissa_kappa : ℚ) (covariance_batch_size weight_batch_size : Nat)
    (task : Fin T) : Except String ((Fin d → ℚ) × (Fin d → ℚ) × Key) :=
  if method = "explicit" then
    .ok (fun j => explicit_weight_matrix j task,
         fun j => explicit_weight_matrix j task, key)
  else
    match implicitWeights C Phi Psi key method lissa_kappa
        covariance_batch_size weight_batch_size task with
    | .ok w => .ok (w.weight_1, w.weight_2, w.key)
    | .error e => .error e

/-- Embedding of the sparse SGD scatter of lines 287-292:
`Phi = Phi.at[source_states, :].set(Phi[source_states, :] - learning_rate * gradient)`.
All update values are computed from the incoming `Phi`; on duplicate indices
in the batch the last write wins, and unsampled rows are untouched. -/
def sgdUpdate {B : Nat} (Phi : Mat S d) (source_states : Fin B → Fin S)
    (learning_rate : ℚ) (gradient : Mat B d) : Mat S d :=
  Matrix.of fun s j =>
    match (List.finRange B).reverse.find? (fun i => decide (source_states i = s)) with
    | some i => Phi s j - learning_rate * gradient i j
    | none => Phi s j

/-- Embedding of `_train_step` (lines 163-305).  The two index draws of lines
204-205 come first; the feature-norm EMA and the weight dispatch follow, each
able to raise; the residual of lines 274-275, the broadcast gradient of lines
279-285 and the sparse update of lines 291-292 are then formed.  For
`method == 'explicit'`, line 298 performs numpy-style in-place item assignment
`explicit_weight_matrix[:, task] -= ...` on an immutable jax array, which
raises `TypeError` before the step can return. -/
def _train_step (C : Collab S d T) (Phi : Mat S d) (Psi : Mat S T)
    (explicit_weight_matrix : Mat d T) (estimated_feature_norm : Option ℚ)
    (learning_rate : ℚ) (key : Key) (method : String) (lissa_kappa : ℚ)
    (covariance_batch_size main_batch_size weight_batch_size : Nat)
    (estimate_feature_norm : Bool) :
    Except String (StepResult S d main_batch_size) :=
  let source_states := (C.draw_S main_batch_size key).1
  let key1 := (C.draw_S main_batch_size key).2
  let task := (C.draw_T 1 key1).1 0
  let key2 := (C.draw_T 1 key1).2
  match stepEfn C Phi source_states estimated_feature_norm method
          estimate_feature_norm,
        stepWeights C Phi Psi explicit_weight_matrix key2 method lissa_kappa
          covariance_batch_size weight_batch_size task with
  | .ok efn, .ok (weight_1, weight_2, key3) =>
    let estimated_error : Fin main_batch_size → ℚ := fun i =>
      (∑ j, Phi (source_states i) j * weight_1 j) - Psi (source_states i) task
    let gradient : Mat main_batch_size d :=
      Matrix.of fun i j => weight_2 j * estimated_error i
    if method = "explicit" then
      .error "TypeError: JAX arrays are immutable and do not support in-place item assignment"
    else
      .ok ⟨sgdUpdate Phi source_states learning_rate gradient, efn, key3, gradient⟩
  | .error e, _ => .error e
  | .ok _, .error e => .error e

/-- The training loop's variable-state recurrence (the `variable_kwargs`
threading of lines 397-413, with the trajectory/metrics bookkeeping
stripped): the state `(Phi, estimated_feature_norm, key)` after `n` executed
training steps, or the error of the first failing step.  This is the
reference meaning of "`Phi` after step `n`". -/
def stepIter (C : Collab S d T) (Psi : Mat S T) (explicit_weight_matrix : Mat d T)
    (learning_rate : ℚ) (method : String) (lissa_kappa : ℚ)
    (covariance_batch_size main_batch_size weight_batch_size : Nat)
    (estimate_feature_norm : Bool) :
    Nat → Mat S d → Option ℚ → Key →
    Except String (Mat S d × Option ℚ × Key)
  | 0, Phi, efn, key => .ok (Phi, efn, key)
  | Nat.succ n, Phi, efn, key =>
    match _train_step C Phi Psi explicit_weight_matrix efn learning_rate key
        method lissa_kappa covariance_batch_size main_batch_size
        weight_batch_size estimate_feature_norm with
    | .error e => .error e
    | .ok r =>
      stepIter C Psi explicit_weight_matrix learning_rate method lissa_kappa
        covariance_batch_size main_batch_size weight_batch_size
        estimate_feature_norm n r.Phi r.estimated_feature_norm r.key

/-- The data `train` produces: the trajectory list of `Phi` snapshots
(stacked on line 424) and the per-step metric stream handed to the writer
(lines 414-417; `grad_norm` and `frob_norm` are the two scalars the loop
appends to `compute_metrics`'s record). -/
structure TrainOut (S d : Nat) where
  trajectory : List (Mat S d)
  logs : List (MetricsRec × ℚ × ℚ)

/-- The body of the training loop of lines 404-422, by recursion on the
number of remaining iterations: run `_train_step`, compute the metric record
plus `grad_norm` and the reconstruction objective, snapshot `Phi`, recurse on
the advanced variable state. -/
def trainSteps (C : Collab S d T) (Psi : Mat S T) (optimal_subspace : Mat S d)
    (explicit_weight_matrix : Mat d T) (learning_rate : ℚ) (method : String)
    (lissa_kappa : ℚ)
    (covariance_batch_size main_batch_size weight_batch_size : Nat)
    (estimate_feature_norm : Bool) :
    Nat → Mat S d → Option ℚ → Key →
    Except String (List (Mat S d) × List (MetricsRec × ℚ × ℚ))
  | 0, _, _, _ => .ok ([], [])
  | Nat.succ n, Phi, efn, key =>
    match _train_step C Phi Psi explicit_weight_matrix efn learning_rate key
        method lissa_kappa covariance_batch_size main_batch_size
        weight_batch_size estimate_feature_norm with
    | .error e => .error e
    | .ok r =>
      let metrics := compute_metrics C r.Phi optimal_subspace
      let grad_norm := C.frob_norm main_batch_size d r.gradient
      let frob := C.outer_objective_mc r.Phi Psi
      match trainSteps C Psi optimal_subspace explicit_weight_matrix
          learning_rate method lissa_kappa covariance_batch_size
          main_batch_size weight_batch_size estimate_feature_norm n r.Phi
          r.estimated_feature_norm r.key with
      | .error e => .error e
      | .ok p => .ok (r.Phi :: p.1, (metrics, grad_norm, frob) :: p.2)

/-- Embedding of `train` (lines 308-424).  `Phi` is copied and snapshotted
before any step (lines 356-357); the feature-norm estimate is initialised
from the full feature matrix or disabled (lines 364-367); the key is split
and the explicit weight matrix drawn (lines 370-372); anything other than the
`sgd` optimizer fails the line-374 assertion before the loop; then the loop
runs over `range(initial_step + 1, num_epochs + 1)`, i.e.
`num_epochs - initial_step` iterations.  The checkpoint hook and progress
display are side effects with no bearing on the returned value. -/
def train (C : Collab S d T) (initial_step : Nat) (Phi : Mat S d)
    (Psi : Mat S T) (optimal_subspace : Mat S d) (num_epochs : Nat)
    (learning_rate : ℚ) (key : Key) (method : String) (lissa_kappa : ℚ)
    (optimizer : String)
    (covariance_batch_size main_batch_size weight_batch_size : Nat)
    (estimate_feature_norm : Bool) : Except String (TrainOut S d) :=
  let estimated_feature_norm : Option ℚ :=
    if estimate_feature_norm then some (C.max_feature_norm S Phi) else none
  let key1 := (C.key_split key).1
  let weight_key := (C.key_split key).2
  let explicit_weight_matrix := C.normal_dT weight_key
  if optimizer = "sgd" then
    match trainSteps C Psi optimal_subspace explicit_weight_matrix
        learning_rate method lissa_kappa covariance_batch_size
        main_batch_size weight_batch_size estimate_feature_norm
        (num_epochs - initial_step) Phi estimated_feature_norm key1 with
    | .error e => .error e
    | .ok p => .ok ⟨Phi :: p.1, p.2⟩
  else .error "AssertionError: Non-sgd not yet supported."

/-! Concrete instances on the smallest dimensions, used to evaluate the
embedding at explicit inputs. -/

/-- A trivial collaborator bundle for one state, one feature, one task:
drawing always returns index 0 and leaves the key unchanged, and every
numeric collaborator returns 0. -/
def collabOne : Collab 1 1 1 :=
  ⟨fun _ k => (fun _ => 0, k), fun _ k => (fun _ => 0, k), fun k => (k, k),
   fun _ => 0, fun _ _ => 0, fun _ k _ => (0, k), fun _ k _ _ _ => (0, k),
   fun _ => 0, fun _ _ _ => 0, fun _ _ => none, fun _ _ => 0, fun _ _ => 0,
   fun _ _ => 0⟩

/-- A trivial collaborator bundle for two states: drawing always returns
state 0, so state 1 is never sampled. -/
def collabTwo : Collab 2 1 1 :=
  ⟨fun _ k => (fun _ => 0, k), fun _ k => (fun _ => 0, k), fun k => (k, k),
   fun _ => 0, fun _ _ => 0, fun _ k _ => (0, k), fun _ k _ _ _ => (0, k),
   fun _ => 0, fun _ _ _ => 0, fun _ _ => none, fun _ _ => 0, fun _ _ => 0,
   fun _ _ => 0⟩

/-- Concrete 1-by-1 feature matrix with entry 1. -/
def phiOne : Mat 1 1 := Matrix.of fun _ _ => 1

/-- Concrete 1-by-1 target matrix with entry 0. -/
def psiOne : Mat 1 1 := Matrix.of fun _ _ => 0

/-- Concrete 1-by-1 optimal subspace with entry 0. -/
def subOne : Mat 1 1 := Matrix.of fun _ _ => 0

/-- Concrete 1-by-1 explicit weight matrix with entry 0. -/
def ewmOne : Mat 1 1 := Matrix.of fun _ _ => 0

/-- Concrete 2-by-1 feature matrix with all entries 1. -/
def phiTwo : Mat 2 1 := Matrix.of fun _ _ => 1

/-- Concrete 2-by-1 target matrix with all entries 0. -/
def psiTwo : Mat 2 1 := Matrix.of fun _ _ => 0

/-- The all-zero 1-by-1 matrix, whose Gram matrix is singular. -/
def zeroOne : Mat 1 1 := Matrix.of fun _ _ => 0

/-- The oracle covariance of `collabOne` at `phiOne`:
`pinv(Phi.T @ Phi) * num_states` with `num_states = 1`. -/
def covOracleOne : Mat 1 1 :=
  Matrix.of fun i j =>
    collabOne.pinv (Matrix.transpose phiOne * phiOne) i j * ((1 : Nat) : ℚ)

/-- The implicit-weight record the oracle branch produces for `collabOne`,
`phiOne`, `psiOne` at key 0. -/
def wOracleOne : ImplicitW 1 1 :=
  ⟨covOracleOne, covOracleOne, List.finRange 1, List.finRange 1,
   weightEstimate covOracleOne phiOne psiOne (List.finRange 1) 0,
   weightEstimate covOracleOne phiOne psiOne (List.finRange 1) 0, 0⟩

/-- The output of a concrete one-step oracle run of `train` (defined through
the computation itself, so it evaluates without being spelled out). -/
def outOne : TrainOut 1 1 :=
  (train collabOne 0 phiOne psiOne subOne 1 (1 / 100) 0 "oracle" (9 / 10)
    "sgd" 1 1 1 false).toOption.getD ⟨[], []⟩

/-! Helper lemmas about the embedding, shared by the claim theorems below. -/

lemma sgdUpdate_not_sampled {B : Nat} (Phi : Mat S d) (src : Fin B → Fin S)
    (lr : ℚ) (g : Mat B d) (s : Fin S) (j : Fin d) (h : ∀ i, src i ≠ s) :
    sgdUpdate Phi src lr g s j = Phi s j := by
  unfold sgdUpdate
  have hnone :
      (List.finRange B).reverse.find? (fun i => decide (src i = s)) = none := by
    rw [List.find?_eq_none]
    intro i _
    simp [h i]
  simp [Matrix.of_apply, hnone]

lemma sgdUpdate_sampled {B : Nat} (Phi : Mat S d) (src : Fin B → Fin S)
    (lr : ℚ) (g : Mat B d) (j : Fin d) (hinj : Function.Injective src)
    (i : Fin B) :
    sgdUpdate Phi src lr g (src i) j = Phi (src i) j - lr * g i j := by
  unfold sgdUpdate
  have hfind :
      (List.finRange B).reverse.find? (fun x => decide (src x = src i)) =
        some i := by
    cases hf : (List.finRange B).reverse.find? (fun x => decide (src x = src i)) with
    | none =>
      rw [List.find?_eq_none] at hf
      exact absurd (by simp)
        (hf i (by simp [List.mem_reverse, List.mem_finRange]))
    | some x =>
      have hx := List.find?_some hf
      simp at hx
      rw [hinj hx]
  simp [Matrix.of_apply, hfind]

lemma implicitWeights_explicit_err (C : Collab S d T) (Phi : Mat S d)
    (Psi : Mat S T) (key : Key) (lissa_kappa : ℚ) (cb wb : Nat) (task : Fin T) :
    implicitWeights C Phi Psi key "explicit" lissa_kappa cb wb task =
      .error "UnboundLocalError: local variable covariance_1 referenced before assignment" :=
  rfl

lemma implicitWeights_unknown_method (C : Collab S d T) (Phi : Mat S d)
    (Psi : Mat S T) (key : Key) (method : String) (lissa_kappa : ℚ)
    (cb wb : Nat) (task : Fin T) (h2 : method ≠ "oracle") (h3 : method ≠ "naive")
    (h4 : method ≠ "naive++") (h5 : method ≠ "lissa") :
    implicitWeights C Phi Psi key method lissa_kappa cb wb task =
      .error "UnboundLocalError: local variable covariance_1 referenced before assignment" := by
  unfold implicitWeights
  rw [if_neg h2, if_neg h3, if_neg h4, if_neg h5]

lemma train_step_unknown_method (C : Collab S d T) (Phi : Mat S d)
    (Psi : Mat S T) (ewm : Mat d T) (efn : Option ℚ) (lr : ℚ) (key : Key)
    (method : String) (lissa_kappa : ℚ) (cb mb wb : Nat) (flag : Bool)
    (h1 : method ≠ "explicit") (h2 : method ≠ "oracle") (h3 : method ≠ "naive")
    (h4 : method ≠ "naive++") (h5 : method ≠ "lissa") :
    _train_step C Phi Psi ewm efn lr key method lissa_kappa cb mb wb flag =
      .error "UnboundLocalError: local variable covariance_1 referenced before assignment" := by
  have hefn : stepEfn C Phi (C.draw_S mb key).1 efn method flag = .ok efn := by
    unfold stepEfn
    rw [if_neg (fun hc => h5 hc.1)]
  have hsw : stepWeights C Phi Psi ewm (C.draw_T 1 (C.draw_S mb key).2).2 method
      lissa_kappa cb wb ((C.draw_T 1 (C.draw_S mb key).2).1 0) =
        .error "UnboundLocalError: local variable covariance_1 referenced before assignment" := by
    unfold stepWeights
    rw [if_neg h1,
      implicitWeights_unknown_method C Phi Psi _ method lissa_kappa cb wb _ h2 h3 h4 h5]
  simp only [_train_step]
  rw [hefn, hsw]

lemma trainSteps_ok_length (C : Collab S d T) (Psi : Mat S T) (U : Mat S d)
    (ewm : Mat d T) (lr : ℚ) (method : String) (lissa_kappa : ℚ)
    (cb mb wb : Nat) (flag : Bool) :
    ∀ (n : Nat) (Phi : Mat S d) (efn : Option ℚ) (key : Key)
      (p : List (Mat S d) × List (MetricsRec × ℚ × ℚ)),
      trainSteps C Psi U ewm lr method lissa_kappa cb mb wb flag n Phi efn key =
        .ok p → p.1.length = n := by
  intro n
  induction n with
  | zero =>
    intro Phi efn key p h
    simp only [trainSteps] at h
    cases h
    rfl
  | succ n ih =>
    intro Phi efn key p h
    simp only [trainSteps] at h
    split at h
    · exact Except.noConfusion h
    · split at h
      · exact Except.noConfusion h
      · next q hrec =>
        cases h
        simpa using ih _ _ _ _ hrec

lemma trainSteps_get (C : Collab S d T) (Psi : Mat S T) (U : Mat S d)
    (ewm : Mat d T) (lr : ℚ) (method : String) (lissa_kappa : ℚ)
    (cb mb wb : Nat) (flag : Bool) :
    ∀ (n : Nat) (Phi : Mat S d) (efn : Option ℚ) (key : Key)
      (p : List (Mat S d) × List (MetricsRec × ℚ × ℚ)),
      trainSteps C Psi U ewm lr method lissa_kappa cb mb wb flag n Phi efn
        key = .ok p →
      ∀ j, j < n →
        ∃ st, stepIter C Psi ewm lr method lissa_kappa cb mb wb flag (j + 1)
            Phi efn key = .ok st ∧
          p.1.get? j = some st.1 := by
  intro n
  induction n with
  | zero =>
    intro Phi efn key p h j hj
    exact absurd hj (Nat.not_lt_zero j)
  | succ n ih =>
    intro Phi efn key p h j hj
    simp only [trainSteps] at h
    split at h
    · exact Except.noConfusion h
    · next r hstep =>
      split at h
      · exact Except.noConfusion h
      · next q hrec =>
        cases h
        have hunfold : ∀ m : Nat,
            stepIter C Psi ewm lr method lissa_kappa cb mb wb flag (m + 1) Phi
              efn key =
            match _train_step C Phi Psi ewm efn lr key method lissa_kappa cb
                mb wb flag with
            | .error e => .error e
            | .ok r => stepIter C Psi ewm lr method lissa_kappa cb mb wb flag
                m r.Phi r.estimated_feature_norm r.key :=
          fun m => rfl
        cases j with
        | zero =>
          refine ⟨(r.Phi, r.estimated_feature_norm, r.key), ?_, rfl⟩
          rw [hunfold 0, hstep]
          rfl
        | succ j2 =>
          have hj2 : j2 < n := by omega
          obtain ⟨st, hst, hget⟩ :=
            ih r.Phi r.estimated_feature_norm r.key q hrec j2 hj2
          refine ⟨st, ?_, ?_⟩
          · rw [hunfold (j2 + 1), hstep]
            exact hst
          · simpa using hget

lemma trainSteps_fst_indep (C : Collab S d T) (Psi : Mat S T) (U1 U2 : Mat S d)
    (ewm : Mat d T) (lr : ℚ) (method : String) (lissa_kappa : ℚ)
    (cb mb wb : Nat) (flag : Bool) :
    ∀ (n : Nat) (Phi : Mat S d) (efn : Option ℚ) (key : Key),
      (trainSteps C Psi U1 ewm lr method lissa_kappa cb mb wb flag n Phi efn
        key).map Prod.fst =
      (trainSteps C Psi U2 ewm lr method lissa_kappa cb mb wb flag n Phi efn
        key).map Prod.fst := by
  intro n
  induction n with
  | zero => intro Phi efn key; rfl
  | succ n ih =>
    intro Phi efn key
    simp only [trainSteps]
    split
    · rfl
    · next r hstep =>
      have hrec := ih r.Phi r.estimated_feature_norm r.key
      split
      · next e1 h1 =>
        cases h2 : trainSteps C Psi U2 ewm lr method lissa_kappa cb mb wb flag n
            r.Phi r.estimated_feature_norm r.key with
        | error e2 =>
          rw [h1, h2] at hrec
          simp only [Except.map] at hrec
          simp only [Except.map]
          exact hrec
        | ok q2 =>
          rw [h1, h2] at hrec
          simp only [Except.map] at hrec
          exact absurd hrec (by simp)
      · next q1 h1 =>
        cases h2 : trainSteps C Psi U2 ewm lr method lissa_kappa cb mb wb flag n
            r.Phi r.estimated_feature_norm r.key with
        | error e2 =>
          rw [h1, h2] at hrec
          simp only [Except.map] at hrec
          exact absurd hrec (by simp)
        | ok q2 =>
          rw [h1, h2] at hrec
          simp only [Except.map] at hrec
          simp only [Except.map]
          injection hrec with hq
          rw [hq]

/-! The claim theorems. -/

/-- C1: for every method and every input state, one invocation of the
training step changes `Phi` only at the rows listed in the sampled
source-state index batch: projected at any row `s` not among the sampled
source states (and any column `j`), the step's result carries exactly the
incoming entry `Phi s j`; when the step raises, no new `Phi` is produced and
both sides are the same error. -/
theorem phi_frame_unsampled_rows (C : Collab S d T) (Phi : Mat S d)
    (Psi : Mat S T) (ewm : Mat d T) (efn : Option ℚ) (lr : ℚ) (key : Key)
    (method : String) (lissa_kappa : ℚ) (cb mb wb : Nat) (flag : Bool)
    (s : Fin S) (j : Fin d)
    (h : ∀ i : Fin mb, (C.draw_S mb key).1 i ≠ s) :
    (_train_step C Phi Psi ewm efn lr key method lissa_kappa cb mb wb
      flag).map (fun r => r.Phi s j) =
    (_train_step C Phi Psi ewm efn lr key method lissa_kappa cb mb wb
      flag).map (fun _ => Phi s j) := by
  simp only [_train_step]
  split
  · split
    · rfl
    · simp only [Except.map]
      exact congrArg Except.ok (sgdUpdate_not_sampled Phi _ lr _ s j h)
  · rfl
  · rfl

/-- C2: for `method = 'explicit'` the training step never returns: line 298
performs numpy-style in-place item assignment
`explicit_weight_matrix[:, task] -= learning_rate * expanded_gradient` on an
immutable jax array, which raises `TypeError`, so the claimed column update
of the explicit weight matrix never happens. -/
theorem explicit_method_step_raises (C : Collab S d T) (Phi : Mat S d)
    (Psi : Mat S T) (ewm : Mat d T) (efn : Option ℚ) (lr : ℚ) (key : Key)
    (lissa_kappa : ℚ) (cb mb wb : Nat) (flag : Bool) :
    _train_step C Phi Psi ewm efn lr key "explicit" lissa_kappa cb mb wb flag =
      .error "TypeError: JAX arrays are immutable and do not support in-place item assignment" :=
  rfl

/-- C3: for `method = 'oracle'` the implicit-weight construction is fully
deterministic: both covariances are the same
`pinv(Phi.T @ Phi) * num_states`, both weight-state sets are the full index
range `0..num_states-1`, the two weight vectors are the identical estimate,
and the generator state is returned untouched; consequently the key a full
oracle training step returns is exactly the key left by the two initial
draws, so the covariance/weight path consumes no randomness. -/
theorem oracle_weights_identical (C : Collab S d T) (Phi : Mat S d)
    (Psi : Mat S T) (key : Key) (lissa_kappa : ℚ) (cb wb : Nat) (task : Fin T)
    (ewm : Mat d T) (efn : Option ℚ) (lr : ℚ) (mb : Nat) (flag : Bool) :
    implicitWeights C Phi Psi key "oracle" lissa_kappa cb wb task =
      .ok ⟨Matrix.of fun i j => C.pinv (Matrix.transpose Phi * Phi) i j * (S : ℚ),
        Matrix.of fun i j => C.pinv (Matrix.transpose Phi * Phi) i j * (S : ℚ),
        List.finRange S, List.finRange S,
        weightEstimate
          (Matrix.of fun i j => C.pinv (Matrix.transpose Phi * Phi) i j * (S : ℚ))
          Phi Psi (List.finRange S) task,
        weightEstimate
          (Matrix.of fun i j => C.pinv (Matrix.transpose Phi * Phi) i j * (S : ℚ))
          Phi Psi (List.finRange S) task,
        key⟩ ∧
    (_train_step C Phi Psi ewm efn lr key "oracle" lissa_kappa cb mb wb
      flag).map (fun r => r.key) =
      .ok (C.draw_T 1 (C.draw_S mb key).2).2 :=
  ⟨rfl, rfl⟩

/-- C6: `method = 'naive'` draws one covariance estimate and one weight-state
batch and reuses both for the two weight vectors, while `method = 'naive++'`
invokes the naive estimator twice with the sampler state advanced between
the calls and then draws two independently advanced weight-state batches;
the key threading in the returned records pins the exact dataflow. -/
theorem naive_reuses_naivepp_resamples (C : Collab S d T) (Phi : Mat S d)
    (Psi : Mat S T) (key : Key) (lissa_kappa : ℚ) (cb wb : Nat)
    (task : Fin T) :
    implicitWeights C Phi Psi key "naive" lissa_kappa cb wb task =
      .ok ⟨(C.naive_inverse Phi key cb).1, (C.naive_inverse Phi key cb).1,
        List.ofFn (C.draw_S wb (C.naive_inverse Phi key cb).2).1,
        List.ofFn (C.draw_S wb (C.naive_inverse Phi key cb).2).1,
        weightEstimate (C.naive_inverse Phi key cb).1 Phi Psi
          (List.ofFn (C.draw_S wb (C.naive_inverse Phi key cb).2).1) task,
        weightEstimate (C.naive_inverse Phi key cb).1 Phi Psi
          (List.ofFn (C.draw_S wb (C.naive_inverse Phi key cb).2).1) task,
        (C.draw_S wb (C.naive_inverse Phi key cb).2).2⟩ ∧
    implicitWeights C Phi Psi key "naive++" lissa_kappa cb wb task =
      .ok ⟨(C.naive_inverse Phi key cb).1,
        (C.naive_inverse Phi (C.naive_inverse Phi key cb).2 cb).1,
        List.ofFn
          (C.draw_S wb (C.naive_inverse Phi (C.naive_inverse Phi key cb).2 cb).2).1,
        List.ofFn
          (C.draw_S wb
            (C.draw_S wb
              (C.naive_inverse Phi (C.naive_inverse Phi key cb).2 cb).2).2).1,
        weightEstimate (C.naive_inverse Phi key cb).1 Phi Psi
          (List.ofFn
            (C.draw_S wb
              (C.naive_inverse Phi (C.naive_inverse Phi key cb).2 cb).2).1) task,
        weightEstimate (C.naive_inverse Phi (C.naive_inverse Phi key cb).2 cb).1
          Phi Psi
          (List.ofFn
            (C.draw_S wb
              (C.draw_S wb
                (C.naive_inverse Phi (C.naive_inverse Phi key cb).2 cb).2).2).1)
          task,
        (C.draw_S wb
          (C.draw_S wb
            (C.naive_inverse Phi (C.naive_inverse Phi key cb).2 cb).2).2).2⟩ :=
  ⟨rfl, rfl⟩

/-- C4: for `method = 'lissa'` with feature-norm estimation enabled and an
incoming estimate `n0`, the returned estimate is exactly the EMA
`n0 + 0.01 * (m - n0)` with `m` the collaborator's max feature norm of the
sampled source-state rows of `Phi`, computed from the incoming `Phi` (hence
before the weight solve); for every other method, and whenever the flag is
off, the estimate passes through unchanged. -/
theorem lissa_feature_norm_ema (C : Collab S d T) (Phi : Mat S d)
    (Psi : Mat S T) (ewm : Mat d T) (lr : ℚ) (key : Key) (lissa_kappa : ℚ)
    (cb mb wb : Nat) :
    (∀ n0 : ℚ,
      (_train_step C Phi Psi ewm (some n0) lr key "lissa" lissa_kappa cb mb wb
        true).map (fun r => r.estimated_feature_norm) =
      .ok (some (n0 + (1 / 100 : ℚ) *
        (C.max_feature_norm mb
          (Matrix.of fun i j => Phi ((C.draw_S mb key).1 i) j) - n0)))) ∧
    (∀ (method : String) (efn : Option ℚ) (flag : Bool), method ≠ "lissa" →
      (_train_step C Phi Psi ewm efn lr key method lissa_kappa cb mb wb
        flag).map (fun r => r.estimated_feature_norm) =
      (_train_step C Phi Psi ewm efn lr key method lissa_kappa cb mb wb
        flag).map (fun _ => efn)) ∧
    (∀ (method : String) (efn : Option ℚ),
      (_train_step C Phi Psi ewm efn lr key method lissa_kappa cb mb wb
        false).map (fun r => r.estimated_feature_norm) =
      (_train_step C Phi Psi ewm efn lr key method lissa_kappa cb mb wb
        false).map (fun _ => efn)) := by
  refine ⟨fun n0 => rfl, ?_, ?_⟩
  · intro method efn flag hm
    have hefn : stepEfn C Phi (C.draw_S mb key).1 efn method flag = .ok efn := by
      unfold stepEfn
      rw [if_neg (fun hc => hm hc.1)]
    simp only [_train_step]
    rw [hefn]
    cases hsw : stepWeights C Phi Psi ewm (C.draw_T 1 (C.draw_S mb key).2).2
        method lissa_kappa cb wb ((C.draw_T 1 (C.draw_S mb key).2).1 0) with
    | error e => rfl
    | ok w =>
      obtain ⟨w1, w2, k3⟩ := w
      by_cases hm2 : method = "explicit" <;> simp [hm2, Except.map]
  · intro method efn
    by_cases hm : method = "lissa"
    · subst hm
      have hefn : stepEfn C Phi (C.draw_S mb key).1 efn "lissa" false =
          .ok efn := by
        unfold stepEfn
        rw [if_neg (fun hc => by simpa using hc.2)]
      simp only [_train_step]
      rw [hefn]
      cases hsw : stepWeights C Phi Psi ewm (C.draw_T 1 (C.draw_S mb key).2).2
          "lissa" lissa_kappa cb wb ((C.draw_T 1 (C.draw_S mb key).2).1 0) with
      | error e => rfl
      | ok w =>
        obtain ⟨w1, w2, k3⟩ := w
        simp [Except.map]
    · have hefn : stepEfn C Phi (C.draw_S mb key).1 efn method false =
          .ok efn := by
        unfold stepEfn
        rw [if_neg (fun hc => hm hc.1)]
      simp only [_train_step]
      rw [hefn]
      cases hsw : stepWeights C Phi Psi ewm (C.draw_T 1 (C.draw_S mb key).2).2
          method lissa_kappa cb wb ((C.draw_T 1 (C.draw_S mb key).2).1 0) with
      | error e => rfl
      | ok w =>
        obtain ⟨w1, w2, k3⟩ := w
        by_cases hm2 : method = "explicit" <;> simp [hm2, Except.map]

/-- C5: whenever the implicit-weight construction of the step returns the
record `w`, the step's per-source-state residual is
`Phi[s_i] . weight_1 - Psi[s_i, task]`, row `i` of the gradient is that
scalar residual times the shared `weight_2`, and (for a batch without
duplicate indices) the sparse SGD update sets row `s_i` of `Phi` to
`Phi[s_i] - learning_rate * gradient_i`. -/
theorem step_gradient_and_sparse_update (C : Collab S d T) (Phi : Mat S d)
    (Psi : Mat S T) (ewm : Mat d T) (efn : Option ℚ) (lr : ℚ) (key : Key)
    (method : String) (lissa_kappa : ℚ) (cb mb wb : Nat) (flag : Bool)
    (w : ImplicitW S d)
    (hw : implicitWeights C Phi Psi (C.draw_T 1 (C.draw_S mb key).2).2 method
      lissa_kappa cb wb ((C.draw_T 1 (C.draw_S mb key).2).1 0) = .ok w) :
    (∀ (i : Fin mb) (j : Fin d),
      (_train_step C Phi Psi ewm efn lr key method lissa_kappa cb mb wb
        flag).map (fun r => r.gradient i j) =
      (_train_step C Phi Psi ewm efn lr key method lissa_kappa cb mb wb
        flag).map (fun _ => w.weight_2 j *
          ((∑ j2, Phi ((C.draw_S mb key).1 i) j2 * w.weight_1 j2) -
            Psi ((C.draw_S mb key).1 i)
              ((C.draw_T 1 (C.draw_S mb key).2).1 0)))) ∧
    (Function.Injective (C.draw_S mb key).1 →
      ∀ (i : Fin mb) (j : Fin d),
      (_train_step C Phi Psi ewm efn lr key method lissa_kappa cb mb wb
        flag).map (fun r => r.Phi ((C.draw_S mb key).1 i) j) =
      (_train_step C Phi Psi ewm efn lr key method lissa_kappa cb mb wb
        flag).map (fun r =>
          Phi ((C.draw_S mb key).1 i) j - lr * r.gradient i j)) := by
  have hm : method ≠ "explicit" := by
    intro hme
    subst hme
    rw [implicitWeights_explicit_err] at hw
    exact Except.noConfusion hw
  have hsw : stepWeights C Phi Psi ewm (C.draw_T 1 (C.draw_S mb key).2).2 method
      lissa_kappa cb wb ((C.draw_T 1 (C.draw_S mb key).2).1 0) =
        .ok (w.weight_1, w.weight_2, w.key) := by
    unfold stepWeights
    rw [if_neg hm, hw]
  constructor
  · intro i j
    simp only [_train_step]
    rw [hsw]
    cases hefn : stepEfn C Phi (C.draw_S mb key).1 efn method flag with
    | error e => rfl
    | ok efn2 => simp [hm, Except.map]
  · intro hinj i j
    simp only [_train_step]
    rw [hsw]
    cases hefn : stepEfn C Phi (C.draw_S mb key).1 efn method flag with
    | error e => rfl
    | ok efn2 =>
      simp only [if_neg hm, Except.map]
      exact congrArg Except.ok (sgdUpdate_sampled Phi _ lr _ j hinj i)

/-- C7 counterexample: resuming from `initial_step = 1` with
`num_epochs = 1` executes zero loop iterations and returns a trajectory with
exactly 1 entry, not the claimed `num_epochs + 1 = 2`. -/
theorem train_resume_short_trajectory :
    (train collabOne 1 phiOne psiOne subOne 1 (1 / 100) 0 "oracle" (9 / 10)
      "sgd" 1 1 1 false).map (fun o => o.trajectory.length) = .ok 1 ∧
    (1 : Nat) ≠ 1 + 1 :=
  ⟨rfl, by decide⟩

/-- C7 (amended): a successful run returns a trajectory with exactly
`num_epochs - initial_step + 1` entries (equal to `num_epochs + 1` exactly
when `initial_step = 0`), whose index-0 entry is the pre-training (or
resumed) snapshot of `Phi`, and whose entry at index `j + 1` is the `Phi` of
the loop's variable state after `j + 1` executed steps (the `stepIter`
recurrence started from the loop's initial feature-norm estimate, explicit
weight matrix and post-split key). -/
theorem train_trajectory_snapshots (C : Collab S d T) (initial_step : Nat)
    (Phi : Mat S d) (Psi : Mat S T) (U : Mat S d) (num_epochs : Nat) (lr : ℚ)
    (key : Key) (method : String) (lissa_kappa : ℚ) (optimizer : String)
    (cb mb wb : Nat) (flag : Bool) (out : TrainOut S d)
    (hok : train C initial_step Phi Psi U num_epochs lr key method lissa_kappa
      optimizer cb mb wb flag = .ok out) :
    out.trajectory.length = num_epochs - initial_step + 1 ∧
    out.trajectory.get? 0 = some Phi ∧
    ∀ j, j < num_epochs - initial_step →
      ∃ st, stepIter C Psi (C.normal_dT (C.key_split key).2) lr method
          lissa_kappa cb mb wb flag (j + 1) Phi
          (if flag = true then some (C.max_feature_norm S Phi) else none)
          (C.key_split key).1 = .ok st ∧
        out.trajectory.get? (j + 1) = some st.1 := by
  simp only [train] at hok
  split at hok
  · split at hok
    · exact Except.noConfusion hok
    · next p heq =>
      cases hok
      refine ⟨?_, rfl, ?_⟩
      · have hlen := trainSteps_ok_length C Psi U _ lr method lissa_kappa cb
          mb wb flag _ Phi _ _ p heq
        simp [hlen]
      · intro j hj
        obtain ⟨st, hst, hget⟩ := trainSteps_get C Psi U _ lr method
          lissa_kappa cb mb wb flag _ Phi _ _ p heq j hj
        exact ⟨st, hst, by simpa using hget⟩
  · exact Except.noConfusion hok

/-- C8 counterexample: with an unmatched method tag but zero loop iterations
(`initial_step = num_epochs = 0`), `train` returns successfully, so an
unmatched method tag is not fatal at startup: it can only fail once a
training step actually runs. -/
theorem unknown_method_zero_steps_succeeds :
    train collabOne 0 phiOne psiOne subOne 0 (1 / 100) 0 "foo" (9 / 10) "sgd"
      1 1 1 false = .ok ⟨[phiOne], []⟩ :=
  rfl

/-- C8 (amended): an unsupported optimizer fails the startup assertion,
before the training loop, for every input; an unmatched method tag instead
raises `UnboundLocalError` inside the first executed training step (the step
produces no result, so `Phi` is never updated), and therefore any run with
at least one step to execute fails with that error rather than at startup. -/
theorem config_failures (C : Collab S d T) (initial_step : Nat) (Phi : Mat S d)
    (Psi : Mat S T) (U : Mat S d) (num_epochs : Nat) (lr : ℚ) (key : Key)
    (method : String) (lissa_kappa : ℚ) (cb mb wb : Nat) (flag : Bool) :
    (∀ optimizer : String, optimizer ≠ "sgd" →
      train C initial_step Phi Psi U num_epochs lr key method lissa_kappa
        optimizer cb mb wb flag =
        .error "AssertionError: Non-sgd not yet supported.") ∧
    (method ≠ "explicit" → method ≠ "oracle" → method ≠ "naive" →
      method ≠ "naive++" → method ≠ "lissa" →
      (∀ (ewm : Mat d T) (efn : Option ℚ) (k : Key),
        _train_step C Phi Psi ewm efn lr k method lissa_kappa cb mb wb flag =
          .error "UnboundLocalError: local variable covariance_1 referenced before assignment") ∧
      (initial_step < num_epochs →
        train C initial_step Phi Psi U num_epochs lr key method lissa_kappa
          "sgd" cb mb wb flag =
          .error "UnboundLocalError: local variable covariance_1 referenced before assignment")) := by
  constructor
  · intro optimizer hop
    simp only [train]
    rw [if_neg hop]
  · intro h1 h2 h3 h4 h5
    constructor
    · intro ewm efn k
      exact train_step_unknown_method C Phi Psi ewm efn lr k method lissa_kappa
        cb mb wb flag h1 h2 h3 h4 h5
    · intro hlt
      simp only [train, if_true]
      obtain ⟨m, hm⟩ : ∃ m, num_epochs - initial_step = m + 1 :=
        ⟨num_epochs - initial_step - 1, by omega⟩
      rw [hm]
      simp only [trainSteps]
      rw [train_step_unknown_method C Phi Psi _ _ lr _ method lissa_kappa cb mb
        wb flag h1 h2 h3 h4 h5]

/-- C9: `compute_cosine_similarity` solves the normal equations
`(Y1.T Y1) w = Y1.T Y2` (when the Gram matrix is regular the returned
weights satisfy them exactly and the result is the norm of the projection
`Y1 @ w`), returns the NaN sentinel whenever the system is singular rather
than raising, and the training loop's trajectory is entirely independent of
the optimal subspace the metrics compare against, so a metric failure never
stops training. -/
theorem cosine_similarity_sentinel :
    (∀ (S d T : Nat) (C : Collab S d T) (Y1 Y2 : Mat S d),
      (Matrix.transpose Y1 * Y1).det ≠ 0 →
      ∃ w, linalg_solve (Matrix.transpose Y1 * Y1) (Matrix.transpose Y1 * Y2) =
          some w ∧
        Matrix.transpose Y1 * Y1 * w = Matrix.transpose Y1 * Y2 ∧
        compute_cosine_similarity C Y1 Y2 = some (C.frob_norm S d (Y1 * w))) ∧
    (∀ (S d T : Nat) (C : Collab S d T) (Y1 Y2 : Mat S d),
      (Matrix.transpose Y1 * Y1).det = 0 →
      compute_cosine_similarity C Y1 Y2 = none) ∧
    (∀ (S d T : Nat) (C : Collab S d T) (initial_step : Nat) (Phi : Mat S d)
      (Psi : Mat S T) (U1 U2 : Mat S d) (num_epochs : Nat) (lr : ℚ)
      (key : Key) (method optimizer : String) (lissa_kappa : ℚ)
      (cb mb wb : Nat) (flag : Bool),
      (train C initial_step Phi Psi U1 num_epochs lr key method lissa_kappa
        optimizer cb mb wb flag).map (fun o => o.trajectory) =
      (train C initial_step Phi Psi U2 num_epochs lr key method lissa_kappa
        optimizer cb mb wb flag).map (fun o => o.trajectory)) := by
  refine ⟨?_, ?_, ?_⟩
  · intro S d T C Y1 Y2 hdet
    have hsolve : linalg_solve (Matrix.transpose Y1 * Y1)
        (Matrix.transpose Y1 * Y2) =
        some (Matrix.of fun i j => (Matrix.transpose Y1 * Y1).det⁻¹ *
          ((Matrix.transpose Y1 * Y1).adjugate *
            (Matrix.transpose Y1 * Y2)) i j) := by
      unfold linalg_solve
      rw [if_neg hdet]
    refine ⟨_, hsolve, ?_, ?_⟩
    · have hs : (Matrix.of fun i j => (Matrix.transpose Y1 * Y1).det⁻¹ *
          ((Matrix.transpose Y1 * Y1).adjugate *
            (Matrix.transpose Y1 * Y2)) i j) =
          (Matrix.transpose Y1 * Y1).det⁻¹ •
            ((Matrix.transpose Y1 * Y1).adjugate *
              (Matrix.transpose Y1 * Y2)) := by
        ext i j
        simp [Matrix.smul_apply]
      rw [hs, Matrix.mul_smul, ← Matrix.mul_assoc, Matrix.mul_adjugate,
        Matrix.smul_mul, Matrix.one_mul, smul_smul, inv_mul_cancel₀ hdet,
        one_smul]
    · unfold compute_cosine_similarity
      rw [hsolve]
  · intro S d T C Y1 Y2 hdet
    unfold compute_cosine_similarity linalg_solve
    rw [if_pos hdet]
  · intro S d T C initial_step Phi Psi U1 U2 num_epochs lr key method optimizer
      lissa_kappa cb mb wb flag
    simp only [train]
    split
    · have hind := trainSteps_fst_indep C Psi U1 U2
        (C.normal_dT (C.key_split key).2) lr method lissa_kappa cb mb wb flag
        (num_epochs - initial_step) Phi
        (if flag = true then some (C.max_feature_norm S Phi) else none)
        (C.key_split key).1
      cases h1 : trainSteps C Psi U1 (C.normal_dT (C.key_split key).2) lr
          method lissa_kappa cb mb wb flag (num_epochs - initial_step) Phi
          (if flag = true then some (C.max_feature_norm S Phi) else none)
          (C.key_split key).1 with
      | error e1 =>
        cases h2 : trainSteps C Psi U2 (C.normal_dT (C.key_split key).2) lr
            method lissa_kappa cb mb wb flag (num_epochs - initial_step) Phi
            (if flag = true then some (C.max_feature_norm S Phi) else none)
            (C.key_split key).1 with
        | error e2 =>
          rw [h1, h2] at hind
          simp only [Except.map] at hind
          simp only [Except.map]
          exact hind
        | ok q2 =>
          rw [h1, h2] at hind
          simp only [Except.map] at hind
          exact absurd hind (by simp)
      | ok q1 =>
        cases h2 : trainSteps C Psi U2 (C.normal_dT (C.key_split key).2) lr
            method lissa_kappa cb mb wb flag (num_epochs - initial_step) Phi
            (if flag = true then some (C.max_feature_norm S Phi) else none)
            (C.key_split key).1 with
        | error e2 =>
          rw [h1, h2] at hind
          simp only [Except.map] at hind
          exact absurd hind (by simp)
        | ok q2 =>
          rw [h1, h2] at hind
          simp only [Except.map] at hind
          simp only [Except.map]
          injection hind with hq
          rw [hq]
    · rfl

/-- C10: the trajectory's index-0 snapshot is exactly the `Phi` the caller
passed in, for every run; the embedding is a pure function of its inputs, so
the caller's feature matrix itself cannot be mutated (line 356 additionally
copies it defensively). -/
theorem train_preserves_input_phi (C : Collab S d T) (initial_step : Nat)
    (Phi : Mat S d) (Psi : Mat S T) (U : Mat S d) (num_epochs : Nat) (lr : ℚ)
    (key : Key) (method : String) (lissa_kappa : ℚ) (optimizer : String)
    (cb mb wb : Nat) (flag : Bool) :
    (train C initial_step Phi Psi U num_epochs lr key method lissa_kappa
      optimizer cb mb wb flag).map (fun o => o.trajectory.head?) =
    (train C initial_step Phi Psi U num_epochs lr key method lissa_kappa
      optimizer cb mb wb flag).map (fun _ => some Phi) := by
  simp only [train]
  split
  · split
    · rfl
    · rfl
  · rfl

/-! Witness theorems: each applies its claim theorem at explicit concrete
inputs, discharging the hypotheses by evaluation. -/

/-- Witness for C1: with two states and a batch that only ever samples state
0, row 1 of `Phi` is untouched by a concrete oracle step. -/
theorem phi_frame_unsampled_rows_witness :
    (∀ i : Fin 1, (collabTwo.draw_S 1 0).1 i ≠ (1 : Fin 2)) ∧
    (_train_step collabTwo phiTwo psiTwo ewmOne none (1 / 100) 0 "oracle"
      (9 / 10) 1 1 1 false).map (fun r => r.Phi 1 0) =
    (_train_step collabTwo phiTwo psiTwo ewmOne none (1 / 100) 0 "oracle"
      (9 / 10) 1 1 1 false).map (fun _ => phiTwo 1 0) :=
  ⟨by decide,
   phi_frame_unsampled_rows collabTwo phiTwo psiTwo ewmOne none (1 / 100) 0
     "oracle" (9 / 10) 1 1 1 false 1 0 (by decide)⟩

/-- Witness for C2: the explicit method raises on a concrete input. -/
theorem explicit_method_step_raises_witness :
    _train_step collabOne phiOne psiOne ewmOne none (1 / 100) 0 "explicit"
      (9 / 10) 1 1 1 false =
      .error "TypeError: JAX arrays are immutable and do not support in-place item assignment" :=
  explicit_method_step_raises collabOne phiOne psiOne ewmOne none (1 / 100) 0
    (9 / 10) 1 1 1 false

/-- Witness for C4: on a concrete non-lissa (oracle) step the feature-norm
estimate passes through unchanged. -/
theorem lissa_feature_norm_ema_witness :
    ("oracle" : String) ≠ "lissa" ∧
    (_train_step collabOne phiOne psiOne ewmOne (some 1) (1 / 100) 0 "oracle"
      (9 / 10) 1 1 1 true).map (fun r => r.estimated_feature_norm) =
    (_train_step collabOne phiOne psiOne ewmOne (some 1) (1 / 100) 0 "oracle"
      (9 / 10) 1 1 1 true).map (fun _ => (some 1 : Option ℚ)) :=
  ⟨by decide,
   (lissa_feature_norm_ema collabOne phiOne psiOne ewmOne (1 / 100) 0 (9 / 10)
     1 1 1).2.1 "oracle" (some 1) true (by decide)⟩

/-- Witness for C5: on a concrete oracle step with a singleton batch the
sampled row of `Phi` moves by exactly `learning_rate` times its gradient
row. -/
theorem step_gradient_and_sparse_update_witness :
    Function.Injective (collabOne.draw_S 1 0).1 ∧
    (_train_step collabOne phiOne psiOne ewmOne none (1 / 100) 0 "oracle"
      (9 / 10) 1 1 1 false).map
        (fun r => r.Phi ((collabOne.draw_S 1 0).1 0) 0) =
    (_train_step collabOne phiOne psiOne ewmOne none (1 / 100) 0 "oracle"
      (9 / 10) 1 1 1 false).map
        (fun r => phiOne ((collabOne.draw_S 1 0).1 0) 0 -
          (1 / 100) * r.gradient 0 0) :=
  ⟨by decide,
   (step_gradient_and_sparse_update collabOne phiOne psiOne ewmOne none
     (1 / 100) 0 "oracle" (9 / 10) 1 1 1 false wOracleOne rfl).2 (by decide)
     0 0⟩

/-- Witness for C7: a concrete one-step oracle run returns a 2-entry
trajectory whose index-0 entry is the initial `phiOne` and whose index-1
entry is the `Phi` of the variable state after the single executed step. -/
theorem train_trajectory_snapshots_witness :
    train collabOne 0 phiOne psiOne subOne 1 (1 / 100) 0 "oracle" (9 / 10)
      "sgd" 1 1 1 false = .ok outOne ∧
    (outOne.trajectory.length = 1 - 0 + 1 ∧
     outOne.trajectory.get? 0 = some phiOne ∧
     ∀ j, j < 1 - 0 →
       ∃ st, stepIter collabOne psiOne
           (collabOne.normal_dT (collabOne.key_split 0).2) (1 / 100) "oracle"
           (9 / 10) 1 1 1 false (j + 1) phiOne
           (if false = true then some (collabOne.max_feature_norm 1 phiOne)
             else none)
           (collabOne.key_split 0).1 = .ok st ∧
         outOne.trajectory.get? (j + 1) = some st.1) :=
  ⟨rfl,
   train_trajectory_snapshots collabOne 0 phiOne psiOne subOne 1 (1 / 100) 0
     "oracle" (9 / 10) "sgd" 1 1 1 false outOne rfl⟩

/-- Witness for C8: a concrete non-sgd optimizer aborts with the assertion,
and a concrete unmatched method with one step to run fails with the
step-level unbound-variable error. -/
theorem config_failures_witness :
    ("adam" : String) ≠ "sgd" ∧
    train collabOne 0 phiOne psiOne subOne 1 (1 / 100) 0 "oracle" (9 / 10)
      "adam" 1 1 1 false =
      .error "AssertionError: Non-sgd not yet supported." ∧
    (0 : Nat) < 1 ∧
    train collabOne 0 phiOne psiOne subOne 1 (1 / 100) 0 "foo" (9 / 10) "sgd"
      1 1 1 false =
      .error "UnboundLocalError: local variable covariance_1 referenced before assignment" :=
  ⟨by decide,
   (config_failures collabOne 0 phiOne psiOne subOne 1 (1 / 100) 0 "oracle"
     (9 / 10) 1 1 1 false).1 "adam" (by decide),
   by decide,
   ((config_failures collabOne 0 phiOne psiOne subOne 1 (1 / 100) 0 "foo"
     (9 / 10) 1 1 1 false).2 (by decide) (by decide) (by decide) (by decide)
     (by decide)).2 (by decide)⟩

/-- Witness for C9: the all-zero feature matrix has a singular Gram matrix
and its cosine similarity is the NaN sentinel. -/
theorem cosine_similarity_sentinel_witness :
    (Matrix.transpose zeroOne * zeroOne).det = 0 ∧
    compute_cosine_similarity collabOne zeroOne subOne = none := by
  have hdet : (Matrix.transpose zeroOne * zeroOne).det = 0 := by
    simp [zeroOne, Matrix.det_fin_one, Matrix.mul_apply, Matrix.transpose_apply,
      Matrix.of_apply]
  exact ⟨hdet, cosine_similarity_sentinel.2.1 1 1 1 collabOne zeroOne subOne hdet⟩

end RunSynthetic
